import Mathlib

/-!
Verification development for the recurrent convolutional autoencoder in
`models/autoCodeNet.py` (ConvLSTMCell, ConvLSTM, LongShortTimeAutoEncodeDecoder).

Tensors are shallowly embedded as dependently-indexed real-valued functions;
float arithmetic is modelled by exact real arithmetic.  Python's dynamically
typed configuration values (used only by the construction-time checks) are
modelled by the inductive type `PyVal` below.
-/

/-- 4-D feature tensor `[batch, channels, height, width]`. -/
def Tensor4 (b c h w : ℕ) : Type := Fin b → Fin c → Fin h → Fin w → ℝ

/-- 5-D sequence tensor in batch-first layout `[batch, time, channels, height, width]`. -/
def Tensor5 (b t c h w : ℕ) : Type := Fin b → Fin t → Fin c → Fin h → Fin w → ℝ

/-- The pipeline's input clip layout `[batch, channels, time, height, width]`
(channel axis precedes time axis, as in `LongShortTimeAutoEncodeDecoder.forward`). -/
def TensorBCTHW (b c t h w : ℕ) : Type := Fin b → Fin c → Fin t → Fin h → Fin w → ℝ

/-- The all-zero 4-D tensor. -/
def zeroT4 {b c h w : ℕ} : Tensor4 b c h w := fun _ _ _ _ => 0

/-- Logistic sigmoid, as computed by `torch.sigmoid`. -/
noncomputable def sigmoid (x : ℝ) : ℝ := 1 / (1 + Real.exp (-x))

/-- Read a spatial map at integer coordinates, with zero padding outside the
valid range (models the implicit zero padding of `nn.Conv2d`). -/
def padGet {h w : ℕ} (x : Fin h → Fin w → ℝ) (i j : ℤ) : ℝ :=
  if hi : 0 ≤ i ∧ i < (h : ℤ) then
    if hj : 0 ≤ j ∧ j < (w : ℤ) then
      x ⟨i.toNat, by omega⟩ ⟨j.toNat, by omega⟩
    else 0
  else 0

/-- Output size of a stride-1 convolution along one spatial axis:
input `n`, kernel `k`, symmetric padding `p` (PyTorch: `n + 2p - k + 1`). -/
def convOut (n k p : ℕ) : ℕ := n + 2 * p + 1 - k

/-- 2-D cross-correlation with bias, stride 1, symmetric zero padding
`(ph, pw)`, as computed by `nn.Conv2d`. -/
noncomputable def conv2d {b ci co kh kw h w : ℕ}
    (wgt : Fin co → Fin ci → Fin kh → Fin kw → ℝ) (bs : Fin co → ℝ)
    (ph pw : ℕ) (x : Tensor4 b ci h w) :
    Tensor4 b co (convOut h kh ph) (convOut w kw pw) :=
  fun nb oc i j =>
    bs oc + ∑ cc : Fin ci, ∑ u : Fin kh, ∑ v : Fin kw,
      wgt oc cc u v *
        padGet (x nb cc) ((i.val : ℤ) + (u.val : ℤ) - (ph : ℤ))
          ((j.val : ℤ) + (v.val : ℤ) - (pw : ℤ))

/-- Concatenation along the channel axis (`torch.cat([·,·], dim=1)`). -/
def catChannel {b c1 c2 h w : ℕ} (x : Tensor4 b c1 h w) (y : Tensor4 b c2 h w) :
    Tensor4 b (c1 + c2) h w :=
  fun nb cc i j =>
    if hc : cc.val < c1 then x nb ⟨cc.val, hc⟩ i j
    else y nb ⟨cc.val - c1, by have := cc.isLt; omega⟩ i j

/-- Reindex a tensor along an equality of spatial dimensions. -/
def recast4 {b c h2 w2 h w : ℕ} (hh : h2 = h) (hw : w2 = w)
    (x : Tensor4 b c h2 w2) : Tensor4 b c h w :=
  fun nb cc i j => x nb cc (Fin.cast hh.symm i) (Fin.cast hw.symm j)

/-- The `k`-th of the four equal channel groups produced by
`torch.split(combined_conv, hidden_dim, dim=1)`. -/
def chunk4 {b ch h w : ℕ} (x : Tensor4 b (4 * ch) h w) (k : Fin 4) :
    Tensor4 b ch h w :=
  fun nb c i j =>
    x nb ⟨k.val * ch + c.val, by
      have hk : k.val + 1 ≤ 4 := k.isLt
      have hc := c.isLt
      calc k.val * ch + c.val < k.val * ch + ch := by omega
        _ = (k.val + 1) * ch := (Nat.succ_mul _ _).symm
        _ ≤ 4 * ch := Nat.mul_le_mul_right ch hk⟩ i j

/-- Apply a scalar function elementwise to a 4-D tensor. -/
def t4map {b c h w : ℕ} (f : ℝ → ℝ) (x : Tensor4 b c h w) : Tensor4 b c h w :=
  fun nb cc i j => f (x nb cc i j)

/-- A cell state: the pair (working state `H`, memory state `C`). -/
def CellSt (b ch h w : ℕ) : Type := Tensor4 b ch h w × Tensor4 b ch h w

/-- The all-zero cell state (what `ConvLSTMCell.init_hidden` produces). -/
def zeroSt {b ch h w : ℕ} : CellSt b ch h w := (zeroT4, zeroT4)

/-- Padding chosen by `ConvLSTMCell.__init__`:
`self.padding = kernel_size[0] // 2, kernel_size[1] // 2`. -/
def ConvLSTMCell.paddingOf (kh kw : ℕ) : ℕ × ℕ := (kh / 2, kw / 2)

/-- `ConvLSTMCell`: one gated convolutional recurrent cell.  Its single
convolution maps `cin + ch` input channels to `4 * ch` output channels. -/
structure ConvLSTMCell (cin ch kh kw : ℕ) where
  weight : Fin (4 * ch) → Fin (cin + ch) → Fin kh → Fin kw → ℝ
  biasv : Fin (4 * ch) → ℝ
  useBias : Bool

/-- Effective bias of the cell's convolution (`nn.Conv2d(..., bias=self.bias)`:
when the flag is off the convolution has no bias term). -/
def ConvLSTMCell.biasEff {cin ch kh kw : ℕ} (cell : ConvLSTMCell cin ch kh kw) :
    Fin (4 * ch) → ℝ :=
  fun oc => if cell.useBias then cell.biasv oc else 0

/-- `ConvLSTMCell.forward`: concatenate input and working state along the
channel axis, apply the cell's convolution, split into four channel groups,
apply sigmoid to the first three groups and tanh to the fourth, and form
`c_next = f * c_cur + i * g`, `h_next = o * tanh(c_next)`.
The hypotheses `hh`, `hw` record that the chosen padding preserves the spatial
size (a shape precondition of the Python code, which multiplies the
convolution output elementwise with `c_cur`). -/
noncomputable def ConvLSTMCell.forward {cin ch kh kw b h w : ℕ}
    (cell : ConvLSTMCell cin ch kh kw)
    (hh : convOut h kh (ConvLSTMCell.paddingOf kh kw).1 = h)
    (hw : convOut w kw (ConvLSTMCell.paddingOf kh kw).2 = w)
    (input_tensor : Tensor4 b cin h w) (cur_state : CellSt b ch h w) :
    CellSt b ch h w :=
  let h_cur := cur_state.1
  let c_cur := cur_state.2
  let combined := catChannel input_tensor h_cur
  let combined_conv : Tensor4 b (4 * ch) h w :=
    recast4 hh hw
      (conv2d cell.weight cell.biasEff (ConvLSTMCell.paddingOf kh kw).1
        (ConvLSTMCell.paddingOf kh kw).2 combined)
  let cc_i := chunk4 combined_conv 0
  let cc_f := chunk4 combined_conv 1
  let cc_o := chunk4 combined_conv 2
  let cc_g := chunk4 combined_conv 3
  let i := t4map sigmoid cc_i
  let f := t4map sigmoid cc_f
  let o := t4map sigmoid cc_o
  let g := t4map Real.tanh cc_g
  let c_next : Tensor4 b ch h w :=
    fun nb c p q => f nb c p q * c_cur nb c p q + i nb c p q * g nb c p q
  let h_next : Tensor4 b ch h w :=
    fun nb c p q => o nb c p q * Real.tanh (c_next nb c p q)
  (h_next, c_next)

/-- The `k`-th gate pre-activation described by the specification: concatenate
input and working state along the channel axis, apply the cell's same-padding
convolution, and take the `k`-th of the four equal channel groups
(0 = input gate, 1 = forget gate, 2 = output gate, 3 = candidate). -/
noncomputable def ConvLSTMCell.gatePre {cin ch kh kw b h w : ℕ}
    (cell : ConvLSTMCell cin ch kh kw)
    (hh : convOut h kh (ConvLSTMCell.paddingOf kh kw).1 = h)
    (hw : convOut w kw (ConvLSTMCell.paddingOf kh kw).2 = w)
    (x : Tensor4 b cin h w) (hcur : Tensor4 b ch h w) (k : Fin 4) :
    Tensor4 b ch h w :=
  chunk4
    (recast4 hh hw
      (conv2d cell.weight cell.biasEff (ConvLSTMCell.paddingOf kh kw).1
        (ConvLSTMCell.paddingOf kh kw).2 (catChannel x hcur))) k

/-- The cell with every convolution weight and every bias entry zero. -/
def zeroCell (cin ch kh kw : ℕ) : ConvLSTMCell cin ch kh kw :=
  { weight := fun _ _ _ _ => 0, biasv := fun _ => 0, useBias := true }

/-- The `t`-th time slice `x[:, t, :, :, :]` of a batch-first sequence. -/
def seqAt {b T c h w : ℕ} (x : Tensor5 b T c h w) (t : Fin T) : Tensor4 b c h w :=
  fun nb cc i j => x nb t cc i j

/-- State after the first `n` iterations of the per-layer time loop
`for t in range(seq_len): h, c = cell(cur_layer_input[:, t], [h, c])`. -/
noncomputable def ConvLSTMCell.iter {cin ch kh kw b T h w : ℕ}
    (cell : ConvLSTMCell cin ch kh kw)
    (hh : convOut h kh (ConvLSTMCell.paddingOf kh kw).1 = h)
    (hw : convOut w kw (ConvLSTMCell.paddingOf kh kw).2 = w)
    (x : Tensor5 b T cin h w) (st : CellSt b ch h w) : ℕ → CellSt b ch h w
  | 0 => st
  | n + 1 =>
    if hn : n < T then
      cell.forward hh hw (seqAt x ⟨n, hn⟩) (cell.iter hh hw x st n)
    else cell.iter hh hw x st n

/-- One layer of the stack: iterate the cell across time; return the stacked
output sequence (`torch.stack(output_inner, dim=1)`, whose `t`-th entry is the
working state after step `t`) together with the final `(h, c)`. -/
noncomputable def ConvLSTMCell.layerRun {cin ch kh kw b T h w : ℕ}
    (cell : ConvLSTMCell cin ch kh kw)
    (hh : convOut h kh (ConvLSTMCell.paddingOf kh kw).1 = h)
    (hw : convOut w kw (ConvLSTMCell.paddingOf kh kw).2 = w)
    (x : Tensor5 b T cin h w) (st : CellSt b ch h w) :
    Tensor5 b T ch h w × CellSt b ch h w :=
  (fun nb t cc i j => (cell.iter hh hw x st (t.val + 1)).1 nb cc i j,
   cell.iter hh hw x st T)

/-- `ConvLSTM`: a stack of `L` ConvLSTM cells.  This models the source for a
scalar `hidden_dim` and a single `kernel_size` pair (the only configurations
the repository constructs), after `_extend_for_multilayer` has broadcast them
to all layers: layer 0 consumes `cin` channels, every later layer consumes the
previous layer's `ch` output channels.  `cellT i` models `cell_list[i + 1]`
(unused entries of the function are never read).  All repository instances use
`batch_first=True`; `forward` below takes its input already in the batch-first
layout that the source normalizes to. -/
structure ConvLSTM (cin ch kh kw L : ℕ) where
  cell0 : ConvLSTMCell cin ch kh kw
  cellT : ℕ → ConvLSTMCell ch ch kh kw
  return_all_layers : Bool

/-- Layers `1, …` of the stack loop `for layer_idx in range(self.num_layers)`:
run `k` further layers starting at layer index `idx`, feeding each layer's
stacked output sequence to the next layer. -/
noncomputable def ConvLSTM.runTail {cin ch kh kw L b T h w : ℕ}
    (m : ConvLSTM cin ch kh kw L)
    (hh : convOut h kh (ConvLSTMCell.paddingOf kh kw).1 = h)
    (hw : convOut w kw (ConvLSTMCell.paddingOf kh kw).2 = w)
    (init : ℕ → CellSt b ch h w) :
    ℕ → ℕ → Tensor5 b T ch h w → List (Tensor5 b T ch h w × CellSt b ch h w)
  | 0, _, _ => []
  | k + 1, idx, cur =>
    let r := (m.cellT (idx - 1)).layerRun hh hw cur (init idx)
    r :: m.runTail hh hw init k (idx + 1) r.1

/-- The full layer loop: per-layer `(layer_output, last_state)` for layers
`0 … L-1` (empty when `num_layers = 0`). -/
noncomputable def ConvLSTM.runAll {cin ch kh kw L b T h w : ℕ}
    (m : ConvLSTM cin ch kh kw L)
    (hh : convOut h kh (ConvLSTMCell.paddingOf kh kw).1 = h)
    (hw : convOut w kw (ConvLSTMCell.paddingOf kh kw).2 = w)
    (x : Tensor5 b T cin h w) (init : ℕ → CellSt b ch h w) :
    List (Tensor5 b T ch h w × CellSt b ch h w) :=
  if L = 0 then []
  else
    let r0 := m.cell0.layerRun hh hw x (init 0)
    r0 :: m.runTail hh hw init (L - 1) 1 r0.1

/-- `ConvLSTM.forward`.  When `hidden_state is None` each layer starts from the
zero state built by `ConvLSTMCell.init_hidden`; otherwise layer `i` starts
from `hidden_state[i]`.  The layer loop collects `last_state_list` (and a
`layer_output_list`, see `ConvLSTM.layerOutputs`); when `return_all_layers`
is false both lists are truncated to their last element (`[-1:]`).  The
function then returns `last_state_list` ONLY (`return last_state_list`) —
the tuple `(layer_output_list, last_state_list)` promised by the class
docstring is not returned. -/
noncomputable def ConvLSTM.forward {cin ch kh kw L b T h w : ℕ}
    (m : ConvLSTM cin ch kh kw L)
    (hh : convOut h kh (ConvLSTMCell.paddingOf kh kw).1 = h)
    (hw : convOut w kw (ConvLSTMCell.paddingOf kh kw).2 = w)
    (x : Tensor5 b T cin h w) (hidden : Option (List (CellSt b ch h w))) :
    List (CellSt b ch h w) :=
  let init : ℕ → CellSt b ch h w := fun i =>
    match hidden with
    | some l => l.getD i zeroSt
    | none => zeroSt
  let last_state_list := (m.runAll hh hw x init).map (fun r => r.2)
  if m.return_all_layers then last_state_list
  else last_state_list.drop (last_state_list.length - 1)

/-- The `layer_output_list` computed (and truncated) by `ConvLSTM.forward`,
but never returned by it. -/
noncomputable def ConvLSTM.layerOutputs {cin ch kh kw L b T h w : ℕ}
    (m : ConvLSTM cin ch kh kw L)
    (hh : convOut h kh (ConvLSTMCell.paddingOf kh kw).1 = h)
    (hw : convOut w kw (ConvLSTMCell.paddingOf kh kw).2 = w)
    (x : Tensor5 b T cin h w) (hidden : Option (List (CellSt b ch h w))) :
    List (Tensor5 b T ch h w) :=
  let init : ℕ → CellSt b ch h w := fun i =>
    match hidden with
    | some l => l.getD i zeroSt
    | none => zeroSt
  let layer_output_list := (m.runAll hh hw x init).map (fun r => r.1)
  if m.return_all_layers then layer_output_list
  else layer_output_list.drop (layer_output_list.length - 1)

/-- With a 3-wide kernel the chosen padding `3 // 2 = 1` preserves any
spatial size. -/
def samePad3 (n : ℕ) : convOut n 3 (ConvLSTMCell.paddingOf 3 3).1 = n := by
  simp only [convOut, ConvLSTMCell.paddingOf]
  omega

/-- Transpose a 3-frame window from `[B, C, T, H, W]` to `[B, T, C, H, W]`
(`torch.transpose(·, 1, 2)`). -/
def transposeToBTCHW {b c h w : ℕ} (x : TensorBCTHW b c 3 h w) :
    Tensor5 b 3 c h w :=
  fun nb t cc i j => x nb cc t i j

/-- The 3-frame time slice `x[:, :, off:off+3, :, :]` of a clip. -/
def slice3 {b c t h w : ℕ} (off : ℕ) (hoff : off + 3 ≤ t)
    (x : TensorBCTHW b c t h w) : TensorBCTHW b c 3 h w :=
  fun nb cc ti i j => x nb cc ⟨off + ti.val, by have := ti.isLt; omega⟩ i j

/-- Concatenation along the batch axis (`torch.cat([·,·], 0)`). -/
def catBatch5 {b1 b2 t c h w : ℕ} (x : Tensor5 b1 t c h w)
    (y : Tensor5 b2 t c h w) : Tensor5 (b1 + b2) t c h w :=
  fun nb tt cc i j =>
    if hb : nb.val < b1 then x ⟨nb.val, hb⟩ tt cc i j
    else y ⟨nb.val - b1, by have := nb.isLt; omega⟩ tt cc i j

/-- `LongShortTimeAutoEncodeDecoder`: owns three single-layer ConvLSTM stacks,
each constructed as `ConvLSTM(3, 3, (3,3), 1, True, True, False)`; only their
learned weights vary. -/
structure LongShortTimeAutoEncodeDecoder where
  awareCell : ConvLSTMCell 3 3 3 3
  predCell : ConvLSTMCell 3 3 3 3
  decodeCell : ConvLSTMCell 3 3 3 3

/-- A single-layer stack as the pipeline constructor builds it:
`num_layers=1`, `batch_first=True`, `return_all_layers=False`.
(`cellT` models the empty tail of `cell_list` and is never read.) -/
def pipelineStack (cell : ConvLSTMCell 3 3 3 3) : ConvLSTM 3 3 3 3 1 :=
  { cell0 := cell, cellT := fun _ => cell, return_all_layers := false }

/-- Windowing and batch-stacking stage of the pipeline: the four overlapping
3-frame windows `inputs9[:,:,0:3] , [:,:,2:5] , [:,:,4:7] , [:,:,6:9]`, each
transposed to `[B, T, C, H, W]` and concatenated along the batch axis
(`inputs13355779`). -/
def LongShortTimeAutoEncodeDecoder.stackedWindows {b t h w : ℕ}
    (ht : 9 ≤ t) (x : TensorBCTHW b 3 t h w) :
    Tensor5 (b + b + b + b) 3 3 h w :=
  let inputs13 := transposeToBTCHW (slice3 0 (by omega) x)
  let inputs35 := transposeToBTCHW (slice3 2 (by omega) x)
  let inputs57 := transposeToBTCHW (slice3 4 (by omega) x)
  let inputs79 := transposeToBTCHW (slice3 6 (by omega) x)
  catBatch5 (catBatch5 (catBatch5 inputs13 inputs35) inputs57) inputs79

/-- Encoder stage: `self.convLstmMotionAwareBlock(inputs13355779)[0][1]` — the
final memory state `C` of the single layer, one row per stacked window. -/
noncomputable def LongShortTimeAutoEncodeDecoder.encodedC {b h w : ℕ}
    (net : LongShortTimeAutoEncodeDecoder)
    (s : Tensor5 (b + b + b + b) 3 3 h w) : Tensor4 (b + b + b + b) 3 h w :=
  (((pipelineStack net.awareCell).forward (samePad3 h) (samePad3 w) s
      none).getD 0 zeroSt).2

/-- Scene-encoding input: `c13355779[0:3]` unsqueezed to a one-step sequence
`[1, 3, 3, H, W]` whose time axis ranges over the first three windows. -/
def LongShortTimeAutoEncodeDecoder.sceneSeq {b h w : ℕ} (hb : 1 ≤ b)
    (cAll : Tensor4 (b + b + b + b) 3 h w) : Tensor5 1 3 3 h w :=
  fun _ tt cc i j => cAll ⟨tt.val, by have := tt.isLt; omega⟩ cc i j

/-- Predictor stage: `self.convLstmMotionPredBlock(c133557)[0][1]` — the
predicted memory state for the fourth window. -/
noncomputable def LongShortTimeAutoEncodeDecoder.predictedC {b h w : ℕ}
    (net : LongShortTimeAutoEncodeDecoder) (hb : 1 ≤ b)
    (cAll : Tensor4 (b + b + b + b) 3 h w) : Tensor4 1 3 h w :=
  (((pipelineStack net.predCell).forward (samePad3 h) (samePad3 w)
      (LongShortTimeAutoEncodeDecoder.sceneSeq hb cAll) none).getD 0 zeroSt).2

/-- Decoder input: row 3 of the stacked memory states (`c13355779[3]`),
unsqueezed twice to the single-step single-batch sequence `[1, 1, 3, H, W]`. -/
def LongShortTimeAutoEncodeDecoder.realSeq {b h w : ℕ} (hb : 1 ≤ b)
    (cAll : Tensor4 (b + b + b + b) 3 h w) : Tensor5 1 1 3 h w :=
  fun _ _ cc i j => cAll ⟨3, by omega⟩ cc i j

/-- Encode, predict and decode from the stacked windows: the decoder runs on
the fourth window's memory row with explicit initial state
`[(torch.zeros(c79Pred.shape), c79Pred)]` and the pipeline returns the
decoder's working state `H` (`self.convLstmDecode(cReal, init)[0][0]`). -/
noncomputable def LongShortTimeAutoEncodeDecoder.decodeFromStacked {b h w : ℕ}
    (net : LongShortTimeAutoEncodeDecoder) (hb : 1 ≤ b)
    (s : Tensor5 (b + b + b + b) 3 3 h w) : Tensor4 1 3 h w :=
  let cAll := LongShortTimeAutoEncodeDecoder.encodedC net s
  (((pipelineStack net.decodeCell).forward (samePad3 h) (samePad3 w)
      (LongShortTimeAutoEncodeDecoder.realSeq hb cAll)
      (some [(fun _ _ _ _ => 0,
              LongShortTimeAutoEncodeDecoder.predictedC net hb cAll)])).getD 0
    zeroSt).1

/-- `LongShortTimeAutoEncodeDecoder.forward`: full pipeline on a clip
`[B, 3, T, H, W]` with at least 9 frames.  The slicing of rows `0:3` and `3`
of the stacked batch hardcodes an original batch size of 1 (`hb`). -/
noncomputable def LongShortTimeAutoEncodeDecoder.forward {b t h w : ℕ}
    (net : LongShortTimeAutoEncodeDecoder) (hb : 1 ≤ b) (ht : 9 ≤ t)
    (x : TensorBCTHW b 3 t h w) : Tensor4 1 3 h w :=
  LongShortTimeAutoEncodeDecoder.decodeFromStacked net hb
    (LongShortTimeAutoEncodeDecoder.stackedWindows ht x)

/-- Restriction of a clip to its first 9 frames. -/
def restrict9 {b c t h w : ℕ} (ht : 9 ≤ t) (x : TensorBCTHW b c t h w) :
    TensorBCTHW b c 9 h w :=
  fun nb cc ti i j => x nb cc ⟨ti.val, by have := ti.isLt; omega⟩ i j

/-- A dynamically typed Python value, as far as the construction-time checks
of `ConvLSTM.__init__` inspect one: an integer scalar, a tuple, or a list. -/
inductive PyVal where
  | int : ℤ → PyVal
  | tuple : List PyVal → PyVal
  | list : List PyVal → PyVal

/-- `isinstance(·, tuple)`. -/
def PyVal.isTuple : PyVal → Bool
  | .tuple _ => true
  | _ => false

/-- The two `ValueError`s `ConvLSTM.__init__` can raise. -/
inductive ConfigError where
  | badKernelSize
  | inconsistentLength

/-- `ConvLSTM._check_kernel_size_consistency`: raise unless `kernel_size` is a
tuple, or a list all of whose elements are tuples. -/
def checkKernelSizeConsistency : PyVal → Except ConfigError Unit
  | .tuple _ => .ok ()
  | .list l => if l.all PyVal.isTuple then .ok () else .error .badKernelSize
  | _ => .error .badKernelSize

/-- `ConvLSTM._extend_for_multilayer`: broadcast a non-list parameter to a
list of length `num_layers`; pass a list through unchanged. -/
def extendForMultilayer (param : PyVal) (num_layers : ℕ) : List PyVal :=
  match param with
  | .list l => l
  | p => List.replicate num_layers p

/-- The construction-time validation of `ConvLSTM.__init__`: first
`_check_kernel_size_consistency(kernel_size)`, then broadcast `kernel_size`
and `hidden_dim` and require `len(kernel_size) == len(hidden_dim) ==
num_layers`.  An error means construction fails before any layer is built. -/
def convLSTMInitCheck (kernel_size hidden_dim : PyVal) (num_layers : ℕ) :
    Except ConfigError Unit :=
  match checkKernelSizeConsistency kernel_size with
  | .error e => .error e
  | .ok _ =>
    let ks := extendForMultilayer kernel_size num_layers
    let hd := extendForMultilayer hidden_dim num_layers
    if ks.length = hd.length ∧ hd.length = num_layers then .ok ()
    else .error .inconsistentLength

/-- From the claim's words: a `(kh, kw)` pair, i.e. a tuple of exactly two
integers. -/
def isIntPair : PyVal → Bool
  | .tuple [.int _, .int _] => true
  | _ => false

/-- From the claim's words: a single `(kh, kw)` pair or a list of such pairs. -/
def isPairOrListOfPairs (k : PyVal) : Bool :=
  isIntPair k ||
    (match k with
     | .list l => l.all isIntPair
     | _ => false)

/-- A 3-tuple, which is not a `(kh, kw)` pair. -/
def badTriple : PyVal := PyVal.tuple [PyVal.int 1, PyVal.int 2, PyVal.int 3]

/-- The pipeline with every weight and bias of all three stacks zero. -/
def zeroNet : LongShortTimeAutoEncodeDecoder :=
  { awareCell := zeroCell 3 3 3 3, predCell := zeroCell 3 3 3 3,
    decodeCell := zeroCell 3 3 3 3 }

/-- A concrete two-layer stack (zero weights, `return_all_layers = false`),
used to instantiate layer-count statements. -/
def sampleStack : ConvLSTM 1 1 3 3 2 :=
  { cell0 := zeroCell 1 1 3 3, cellT := fun _ => zeroCell 1 1 3 3,
    return_all_layers := false }

/-- A concrete one-step all-zero sequence tensor. -/
def zt5 : Tensor5 1 1 1 1 1 := fun _ _ _ _ _ => 0

/-- A concrete all-zero 9-frame clip with 1-pixel frames. -/
def zClip9 : TensorBCTHW 1 3 9 1 1 := fun _ _ _ _ _ => 0

theorem tensorBCTHW_congr {b c t h w : ℕ} (x : TensorBCTHW b c t h w)
    (a1 a2 : Fin b) (cc : Fin c) (t1 t2 : Fin t) (i : Fin h) (j : Fin w)
    (ha : a1.val = a2.val) (htt : t1.val = t2.val) :
    x a1 cc t1 i j = x a2 cc t2 i j := by
  rw [show a1 = a2 from Fin.ext ha, show t1 = t2 from Fin.ext htt]

theorem conv2d_zero_apply {b ci co kh kw h w : ℕ} (ph pw : ℕ)
    (x : Tensor4 b ci h w) (nb : Fin b) (oc : Fin co)
    (i : Fin (convOut h kh ph)) (j : Fin (convOut w kw pw)) :
    conv2d (fun _ _ _ _ => (0 : ℝ)) (fun _ => (0 : ℝ)) ph pw x nb oc i j = 0 := by
  simp [conv2d]

theorem zeroCell_forward_zero {cin ch kh kw b h w : ℕ}
    (hh : convOut h kh (ConvLSTMCell.paddingOf kh kw).1 = h)
    (hw : convOut w kw (ConvLSTMCell.paddingOf kh kw).2 = w)
    (x : Tensor4 b cin h w) :
    (zeroCell cin ch kh kw).forward hh hw x zeroSt = zeroSt := by
  unfold ConvLSTMCell.forward zeroSt
  dsimp only
  congr 1 <;> funext nb c p q <;>
    simp [zeroCell, ConvLSTMCell.biasEff, t4map, chunk4, recast4, conv2d,
      zeroT4, Real.tanh_zero]

theorem zeroCell_iter_zero {cin ch kh kw b T h w : ℕ}
    (hh : convOut h kh (ConvLSTMCell.paddingOf kh kw).1 = h)
    (hw : convOut w kw (ConvLSTMCell.paddingOf kh kw).2 = w)
    (xs : Tensor5 b T cin h w) (n : ℕ) :
    (zeroCell cin ch kh kw).iter hh hw xs zeroSt n = zeroSt := by
  induction n with
  | zero => rfl
  | succ n ih =>
    rw [ConvLSTMCell.iter]
    split
    · rw [ih, zeroCell_forward_zero]
    · exact ih

theorem runTail_length {cin ch kh kw L b T h w : ℕ}
    (m : ConvLSTM cin ch kh kw L)
    (hh : convOut h kh (ConvLSTMCell.paddingOf kh kw).1 = h)
    (hw : convOut w kw (ConvLSTMCell.paddingOf kh kw).2 = w)
    (init : ℕ → CellSt b ch h w) (k idx : ℕ) (cur : Tensor5 b T ch h w) :
    (m.runTail hh hw init k idx cur).length = k := by
  induction k generalizing idx cur with
  | zero => rfl
  | succ n ih => simp [ConvLSTM.runTail, ih]

theorem runAll_length {cin ch kh kw L b T h w : ℕ}
    (m : ConvLSTM cin ch kh kw L)
    (hh : convOut h kh (ConvLSTMCell.paddingOf kh kw).1 = h)
    (hw : convOut w kw (ConvLSTMCell.paddingOf kh kw).2 = w)
    (x : Tensor5 b T cin h w) (init : ℕ → CellSt b ch h w) (hL : 1 ≤ L) :
    (m.runAll hh hw x init).length = L := by
  unfold ConvLSTM.runAll
  rw [if_neg (by omega)]
  simp only [List.length_cons, runTail_length]
  omega

theorem trimmed_length {α : Type} (l : List α) (flag : Bool) (n : ℕ)
    (hlen : l.length = n) (hn : 1 ≤ n) :
    (if flag then l else l.drop (l.length - 1)).length =
      if flag then n else 1 := by
  cases flag
  · simp only [if_neg Bool.false_ne_true, List.length_drop]
    omega
  · simpa using hlen

theorem pipelineStack_forward_eq {b T h w : ℕ} (cell : ConvLSTMCell 3 3 3 3)
    (hh : convOut h 3 (ConvLSTMCell.paddingOf 3 3).1 = h)
    (hw : convOut w 3 (ConvLSTMCell.paddingOf 3 3).2 = w)
    (x : Tensor5 b T 3 h w) (hidden : Option (List (CellSt b 3 h w))) :
    (pipelineStack cell).forward hh hw x hidden =
      [cell.iter hh hw x
        (match hidden with
         | some l => l.getD 0 zeroSt
         | none => zeroSt) T] := by
  cases hidden <;> rfl

theorem zero_pipelineStack_forward {b T h w : ℕ}
    (hh : convOut h 3 (ConvLSTMCell.paddingOf 3 3).1 = h)
    (hw : convOut w 3 (ConvLSTMCell.paddingOf 3 3).2 = w)
    (x : Tensor5 b T 3 h w) (hidden : Option (List (CellSt b 3 h w)))
    (hinit : (match hidden with
              | some l => l.getD 0 zeroSt
              | none => zeroSt) = zeroSt) :
    (pipelineStack (zeroCell 3 3 3 3)).forward hh hw x hidden = [zeroSt] := by
  rw [pipelineStack_forward_eq, hinit, zeroCell_iter_zero]

theorem zeroNet_encodedC {b h w : ℕ} (s : Tensor5 (b + b + b + b) 3 3 h w) :
    LongShortTimeAutoEncodeDecoder.encodedC zeroNet s = zeroT4 := by
  unfold LongShortTimeAutoEncodeDecoder.encodedC
  rw [show zeroNet.awareCell = zeroCell 3 3 3 3 from rfl,
    zero_pipelineStack_forward _ _ _ _ rfl]
  rfl

theorem zeroNet_predictedC {b h w : ℕ} (hb : 1 ≤ b)
    (cAll : Tensor4 (b + b + b + b) 3 h w) :
    LongShortTimeAutoEncodeDecoder.predictedC zeroNet hb cAll = zeroT4 := by
  unfold LongShortTimeAutoEncodeDecoder.predictedC
  rw [show zeroNet.predCell = zeroCell 3 3 3 3 from rfl,
    zero_pipelineStack_forward _ _ _ _ rfl]
  rfl

theorem zeroNet_forward_any {b t h w : ℕ} (hb : 1 ≤ b) (ht : 9 ≤ t)
    (x : TensorBCTHW b 3 t h w) :
    zeroNet.forward hb ht x = zeroT4 := by
  unfold LongShortTimeAutoEncodeDecoder.forward
    LongShortTimeAutoEncodeDecoder.decodeFromStacked
  dsimp only
  rw [zeroNet_encodedC, zeroNet_predictedC,
    show zeroNet.decodeCell = zeroCell 3 3 3 3 from rfl,
    zero_pipelineStack_forward _ _ _ _ rfl]
  rfl

theorem isTuple_iff (e : PyVal) :
    PyVal.isTuple e = true ↔ ∃ es, e = PyVal.tuple es := by
  cases e <;> simp [PyVal.isTuple]

theorem check_ok_accepted (k : PyVal) :
    checkKernelSizeConsistency k = Except.ok () ↔
      (∃ l, k = PyVal.tuple l) ∨
        (∃ l, k = PyVal.list l ∧ ∀ e ∈ l, ∃ es, e = PyVal.tuple es) := by
  cases k with
  | int n => simp [checkKernelSizeConsistency]
  | tuple l => simp [checkKernelSizeConsistency]
  | list l =>
    simp only [checkKernelSizeConsistency]
    constructor
    · intro hok
      refine Or.inr ⟨l, rfl, ?_⟩
      intro e he
      have hall : l.all PyVal.isTuple = true := by
        by_contra hfalse
        simp only [Bool.not_eq_true] at hfalse
        rw [hfalse] at hok
        simp at hok
      exact (isTuple_iff e).mp ((List.all_eq_true.mp hall) e he)
    · rintro (⟨l2, hl2⟩ | ⟨l2, hl2, hfa⟩)
      · cases hl2
      · injection hl2 with hl2e
        subst hl2e
        have hall : l.all PyVal.isTuple = true :=
          List.all_eq_true.mpr fun e he => (isTuple_iff e).mpr (hfa e he)
        rw [hall]
        rfl

/-- C1: for every input tensor `[B,Cin,H,W]` and state `(H,C)` of shape
`[B,Ch,H,W]`, `ConvLSTMCell.forward` concatenates the input with the working
state along the channel axis, applies one same-padding convolution producing
`4*Ch` output channels, splits the result into four equal channel groups,
applies sigmoid to the input/forget/output gates and tanh to the candidate,
and returns `C' = forget*C + input*candidate` and `H' = output*tanh(C')`
(`gatePre` is the concat-convolve-split computation, group 0 = input gate,
1 = forget gate, 2 = output gate, 3 = candidate). -/
theorem convLSTMCell_step_gateSpec {cin ch kh kw b h w : ℕ}
    (cell : ConvLSTMCell cin ch kh kw)
    (hh : convOut h kh (ConvLSTMCell.paddingOf kh kw).1 = h)
    (hw : convOut w kw (ConvLSTMCell.paddingOf kh kw).2 = w)
    (x : Tensor4 b cin h w) (hcur ccur : Tensor4 b ch h w) :
    cell.forward hh hw x (hcur, ccur) =
      (fun nb c p q =>
         sigmoid (cell.gatePre hh hw x hcur 2 nb c p q) *
           Real.tanh
             (sigmoid (cell.gatePre hh hw x hcur 1 nb c p q) * ccur nb c p q +
               sigmoid (cell.gatePre hh hw x hcur 0 nb c p q) *
                 Real.tanh (cell.gatePre hh hw x hcur 3 nb c p q)),
       fun nb c p q =>
         sigmoid (cell.gatePre hh hw x hcur 1 nb c p q) * ccur nb c p q +
           sigmoid (cell.gatePre hh hw x hcur 0 nb c p q) *
             Real.tanh (cell.gatePre hh hw x hcur 3 nb c p q)) := rfl

/-- Witness for C1 at a concrete cell, input and state. -/
theorem convLSTMCell_step_gateSpec_w :
    (zeroCell 1 1 3 3).forward (samePad3 1) (samePad3 1)
        (zeroT4 : Tensor4 1 1 1 1) (zeroT4, zeroT4) =
      (fun nb c p q =>
         sigmoid ((zeroCell 1 1 3 3).gatePre (samePad3 1) (samePad3 1) zeroT4
             zeroT4 2 nb c p q) *
           Real.tanh
             (sigmoid ((zeroCell 1 1 3 3).gatePre (samePad3 1) (samePad3 1)
                 zeroT4 zeroT4 1 nb c p q) * zeroT4 nb c p q +
               sigmoid ((zeroCell 1 1 3 3).gatePre (samePad3 1) (samePad3 1)
                   zeroT4 zeroT4 0 nb c p q) *
                 Real.tanh ((zeroCell 1 1 3 3).gatePre (samePad3 1)
                   (samePad3 1) zeroT4 zeroT4 3 nb c p q)),
       fun nb c p q =>
         sigmoid ((zeroCell 1 1 3 3).gatePre (samePad3 1) (samePad3 1) zeroT4
             zeroT4 1 nb c p q) * zeroT4 nb c p q +
           sigmoid ((zeroCell 1 1 3 3).gatePre (samePad3 1) (samePad3 1)
               zeroT4 zeroT4 0 nb c p q) *
             Real.tanh ((zeroCell 1 1 3 3).gatePre (samePad3 1) (samePad3 1)
               zeroT4 zeroT4 3 nb c p q)) :=
  convLSTMCell_step_gateSpec (zeroCell 1 1 3 3) (samePad3 1) (samePad3 1)
    zeroT4 zeroT4 zeroT4

/-- C7: for a cell whose convolution weights and biases are all zero and the
state `H = 0`, `C = 0`, every call of the step (for any input tensor of
matching shape) returns `H' = 0` and `C' = 0`, and iterating the step across
any input sequence keeps the state at zero. -/
theorem zeroCell_fixedPoint {cin ch kh kw b h w : ℕ}
    (hh : convOut h kh (ConvLSTMCell.paddingOf kh kw).1 = h)
    (hw : convOut w kw (ConvLSTMCell.paddingOf kh kw).2 = w) :
    (∀ x : Tensor4 b cin h w,
      (zeroCell cin ch kh kw).forward hh hw x (zeroT4, zeroT4) =
        (zeroT4, zeroT4)) ∧
    (∀ (T : ℕ) (xs : Tensor5 b T cin h w) (n : ℕ),
      (zeroCell cin ch kh kw).iter hh hw xs (zeroT4, zeroT4) n =
        (zeroT4, zeroT4)) :=
  ⟨fun x => zeroCell_forward_zero hh hw x,
   fun _ xs n => zeroCell_iter_zero hh hw xs n⟩

/-- Witness for C7 at a concrete cell and input. -/
theorem zeroCell_fixedPoint_w :
    (zeroCell 1 1 3 3).forward (samePad3 1) (samePad3 1)
        (zeroT4 : Tensor4 1 1 1 1) (zeroT4, zeroT4) = (zeroT4, zeroT4) :=
  (zeroCell_fixedPoint (samePad3 1) (samePad3 1)).1 zeroT4

/-- C8: because the cell's padding is chosen as `(kh//2, kw//2)`, for every
odd kernel size `k` in `{3,5}` and input of spatial size 8x8 the spatial size
of the cell's convolution output (hence of the step's output) equals the
input's spatial size. -/
theorem samePadding_spatial (k : ℕ) (hk : k = 3 ∨ k = 5) :
    convOut 8 k (ConvLSTMCell.paddingOf k k).1 = 8 ∧
      convOut 8 k (ConvLSTMCell.paddingOf k k).2 = 8 := by
  rcases hk with rfl | rfl <;> exact ⟨rfl, rfl⟩

/-- Witness for C8 at kernel size 3. -/
theorem samePadding_spatial_w :
    (3 = 3 ∨ 3 = 5) ∧
      (convOut 8 3 (ConvLSTMCell.paddingOf 3 3).1 = 8 ∧
        convOut 8 3 (ConvLSTMCell.paddingOf 3 3).2 = 8) :=
  ⟨Or.inl rfl, samePadding_spatial 3 (Or.inl rfl)⟩

/-- C2 (supporting theorem for the divergence): the lists computed by
`ConvLSTM.forward` have the documented layer counts — for `L ≥ 1` layers the
returned `last_state_list`, and the internal `layer_output_list`, each hold
exactly one entry when `return_all_layers` is false and exactly `L` entries
when it is true.  (The code then returns only `last_state_list`; the tuple of
both lists promised by the docstring is never returned.) -/
theorem convLSTM_layer_counts {cin ch kh kw L b T h w : ℕ}
    (m : ConvLSTM cin ch kh kw L)
    (hh : convOut h kh (ConvLSTMCell.paddingOf kh kw).1 = h)
    (hw : convOut w kw (ConvLSTMCell.paddingOf kh kw).2 = w)
    (x : Tensor5 b T cin h w) (hidden : Option (List (CellSt b ch h w)))
    (hL : 1 ≤ L) :
    (m.forward hh hw x hidden).length =
        (if m.return_all_layers then L else 1) ∧
      (m.layerOutputs hh hw x hidden).length =
        (if m.return_all_layers then L else 1) := by
  constructor
  · unfold ConvLSTM.forward
    exact trimmed_length _ _ _
      (by rw [List.length_map, runAll_length m hh hw x _ hL]) hL
  · unfold ConvLSTM.layerOutputs
    exact trimmed_length _ _ _
      (by rw [List.length_map, runAll_length m hh hw x _ hL]) hL

/-- Witness for C2's theorem at a concrete two-layer stack. -/
theorem convLSTM_layer_counts_w :
    1 ≤ 2 ∧
      ((sampleStack.forward (samePad3 1) (samePad3 1) zt5 none).length =
          (if sampleStack.return_all_layers then 2 else 1) ∧
        (sampleStack.layerOutputs (samePad3 1) (samePad3 1) zt5 none).length =
          (if sampleStack.return_all_layers then 2 else 1)) :=
  ⟨by omega,
   convLSTM_layer_counts sampleStack (samePad3 1) (samePad3 1) zt5 none
     (by omega)⟩

/-- C6: with every weight and bias of all three stacks zero, an all-zero clip
`[1,3,9,16,16]` through the full pipeline yields the all-zero output of shape
`[1,3,16,16]`. -/
theorem pipeline_zero_endToEnd :
    zeroNet.forward (Nat.le_refl 1) (Nat.le_refl 9)
      (fun _ _ _ _ _ => 0 : TensorBCTHW 1 3 9 16 16) = zeroT4 :=
  zeroNet_forward_any (Nat.le_refl 1) (Nat.le_refl 9) _

/-- C4: for an original batch of 1, the pipeline output equals the working
state `H` of a single decoder-cell step whose input is the encoder memory row
of the fourth window (row 3 of the stacked batch, unsqueezed to a single-step
single-batch sequence) and whose initial state has a zero-filled working
component of the same shape as the predicted memory and the predictor's
output as memory component; the result has shape `[1, 3, H, W]`. -/
theorem pipeline_decode_stage {t h w : ℕ} (ht : 9 ≤ t)
    (net : LongShortTimeAutoEncodeDecoder) (x : TensorBCTHW 1 3 t h w) :
    net.forward (Nat.le_refl 1) ht x =
      (net.decodeCell.forward (samePad3 h) (samePad3 w)
        (seqAt
          (LongShortTimeAutoEncodeDecoder.realSeq (Nat.le_refl 1)
            (LongShortTimeAutoEncodeDecoder.encodedC net
              (LongShortTimeAutoEncodeDecoder.stackedWindows ht x)))
          ⟨0, Nat.one_pos⟩)
        (zeroT4,
          LongShortTimeAutoEncodeDecoder.predictedC net (Nat.le_refl 1)
            (LongShortTimeAutoEncodeDecoder.encodedC net
              (LongShortTimeAutoEncodeDecoder.stackedWindows ht x)))).1 := rfl

/-- Witness for C4 at the zero-weight pipeline and an all-zero clip. -/
theorem pipeline_decode_stage_w :
    9 ≤ 9 ∧
      zeroNet.forward (Nat.le_refl 1) (Nat.le_refl 9) zClip9 =
        (zeroNet.decodeCell.forward (samePad3 1) (samePad3 1)
          (seqAt
            (LongShortTimeAutoEncodeDecoder.realSeq (Nat.le_refl 1)
              (LongShortTimeAutoEncodeDecoder.encodedC zeroNet
                (LongShortTimeAutoEncodeDecoder.stackedWindows (Nat.le_refl 9)
                  zClip9)))
            ⟨0, Nat.one_pos⟩)
          (zeroT4,
            LongShortTimeAutoEncodeDecoder.predictedC zeroNet (Nat.le_refl 1)
              (LongShortTimeAutoEncodeDecoder.encodedC zeroNet
                (LongShortTimeAutoEncodeDecoder.stackedWindows (Nat.le_refl 9)
                  zClip9)))).1 :=
  ⟨Nat.le_refl 9, pipeline_decode_stage (Nat.le_refl 9) zeroNet zClip9⟩

/-- C3: for every input clip `[B,3,T,H,W]` with `T ≥ 9`, the pipeline's
windowing builds exactly four overlapping 3-frame windows slicing time
indices `{2k, 2k+1, 2k+2}` for `k = 0,1,2,3` (so frames 2, 4, 6 each belong
to two windows), transposes each window to `[B,T,C,H,W]`, and concatenates
the four windows along the batch axis, yielding an effective batch of `4*B`
in which row `k*B + n` at window-time `ti` holds frame `2k + ti` of clip
row `n`. -/
theorem stackedWindows_windowing {b t h w : ℕ} (ht : 9 ≤ t)
    (x : TensorBCTHW b 3 t h w) :
    b + b + b + b = 4 * b ∧
      ∀ (k nb ti : ℕ) (hk : k < 4) (hnb : nb < b) (hti : ti < 3)
        (cc : Fin 3) (i : Fin h) (j : Fin w),
        LongShortTimeAutoEncodeDecoder.stackedWindows ht x
            ⟨k * b + nb, by
              have h3 : k * b ≤ 3 * b := Nat.mul_le_mul_right b (by omega)
              omega⟩ ⟨ti, hti⟩ cc i j =
          x ⟨nb, hnb⟩ cc ⟨2 * k + ti, by omega⟩ i j := by
  refine ⟨by omega, ?_⟩
  intro k nb ti hk hnb hti cc i j
  interval_cases k <;>
    simp only [LongShortTimeAutoEncodeDecoder.stackedWindows, catBatch5,
      transposeToBTCHW, slice3] <;>
    split_ifs <;>
    first
      | (exfalso; omega)
      | (exact tensorBCTHW_congr x _ _ cc _ _ i j
          (by simp only [Fin.val_mk]; try omega)
          (by simp only [Fin.val_mk]; try omega))

/-- Witness for C3 at a concrete all-zero clip with batch 1. -/
theorem stackedWindows_windowing_w :
    9 ≤ 9 ∧
      (1 + 1 + 1 + 1 = 4 * 1 ∧
        ∀ (k nb ti : ℕ) (hk : k < 4) (hnb : nb < 1) (hti : ti < 3)
          (cc : Fin 3) (i : Fin 1) (j : Fin 1),
          LongShortTimeAutoEncodeDecoder.stackedWindows (Nat.le_refl 9) zClip9
              ⟨k * 1 + nb, by omega⟩ ⟨ti, hti⟩ cc i j =
            zClip9 ⟨nb, hnb⟩ cc ⟨2 * k + ti, by omega⟩ i j) :=
  ⟨Nat.le_refl 9, stackedWindows_windowing (Nat.le_refl 9) zClip9⟩

theorem stackedWindows_restrict9 {b t h w : ℕ} (ht : 9 ≤ t)
    (x : TensorBCTHW b 3 t h w) :
    LongShortTimeAutoEncodeDecoder.stackedWindows (Nat.le_refl 9)
        (restrict9 ht x) =
      LongShortTimeAutoEncodeDecoder.stackedWindows ht x := by
  have e : ∀ (off : ℕ) (h1 : off + 3 ≤ 9) (h2 : off + 3 ≤ t),
      transposeToBTCHW (slice3 off h1 (restrict9 ht x)) =
        transposeToBTCHW (slice3 off h2 x) := by
    intro off h1 h2
    funext nb tt cc i j
    rfl
  simp only [LongShortTimeAutoEncodeDecoder.stackedWindows]
  rw [e 0, e 2, e 4, e 6]

/-- C10: for every input clip whose time axis has length `t ≥ 9`, the
pipeline's output is determined solely by the time slices at indices 0
through 8: restricting the clip to its first 9 frames never changes the
result, because the windowing slices only indices `0:3`, `2:5`, `4:7`, `6:9`. -/
theorem pipeline_first9_determines {b t h w : ℕ} (hb : 1 ≤ b) (ht : 9 ≤ t)
    (net : LongShortTimeAutoEncodeDecoder) (x : TensorBCTHW b 3 t h w) :
    net.forward hb ht x = net.forward hb (Nat.le_refl 9) (restrict9 ht x) := by
  unfold LongShortTimeAutoEncodeDecoder.forward
  rw [stackedWindows_restrict9]

/-- Witness for C10 at a 10-frame all-zero clip. -/
theorem pipeline_first9_determines_w :
    1 ≤ 1 ∧ 9 ≤ 10 ∧
      zeroNet.forward (Nat.le_refl 1) (by omega)
          (fun _ _ _ _ _ => 0 : TensorBCTHW 1 3 10 1 1) =
        zeroNet.forward (Nat.le_refl 1) (Nat.le_refl 9)
          (restrict9 (by omega)
            (fun _ _ _ _ _ => 0 : TensorBCTHW 1 3 10 1 1)) :=
  ⟨Nat.le_refl 1, by omega,
   pipeline_first9_determines (Nat.le_refl 1) (by omega) zeroNet _⟩

/-- C5 counterexample: the 3-tuple `(1, 2, 3)` is neither a `(kh, kw)` pair
nor a list of such pairs, yet `ConvLSTM.__init__`'s validation accepts it
(with `hidden_dim = 3`, `num_layers = 1`) instead of raising the
configuration error the claim requires. -/
theorem kernel_check_triple_accepted :
    isPairOrListOfPairs badTriple = false ∧
      convLSTMInitCheck badTriple (PyVal.int 3) 1 = Except.ok () :=
  ⟨rfl, rfl⟩

/-- C5 (amended): construction succeeds iff `kernel_size` is a tuple or a
list all of whose elements are tuples (tuple arity and element types are not
checked), and the broadcast `kernel_size` and `hidden_dim` lists both have
length `num_layers`; in particular a bare integer scalar `kernel_size` is
always rejected with the kernel-size configuration error, and on any error
the whole construction fails (no partial success). -/
theorem convLSTMInitCheck_characterization :
    (∀ (k hd : PyVal) (L : ℕ),
      convLSTMInitCheck k hd L = Except.ok () ↔
        (((∃ l, k = PyVal.tuple l) ∨
            (∃ l, k = PyVal.list l ∧ ∀ e ∈ l, ∃ es, e = PyVal.tuple es)) ∧
          (extendForMultilayer k L).length = L ∧
          (extendForMultilayer hd L).length = L)) ∧
    (∀ (n : ℤ) (hd : PyVal) (L : ℕ),
      convLSTMInitCheck (PyVal.int n) hd L =
        Except.error ConfigError.badKernelSize) := by
  constructor
  · intro k hd L
    unfold convLSTMInitCheck
    cases hck : checkKernelSizeConsistency k with
    | error e =>
      constructor
      · intro hcontra
        exact absurd hcontra (by simp)
      · rintro ⟨hacc, -, -⟩
        have hok := (check_ok_accepted k).mpr hacc
        rw [hck] at hok
        exact absurd hok (by simp)
    | ok u =>
      cases u
      have hacc := (check_ok_accepted k).mp hck
      dsimp only
      split_ifs with hlen
      · obtain ⟨h1, h2⟩ := hlen
        exact ⟨fun _ => ⟨hacc, by omega, h2⟩, fun _ => rfl⟩
      · constructor
        · intro hcontra
          exact absurd hcontra (by simp)
        · rintro ⟨-, h1, h2⟩
          exact absurd ⟨h1.trans h2.symm, h2⟩ hlen
  · intro n hd L
    rfl

/-- C9: `_check_kernel_size_consistency` accepts every tuple regardless of
arity or element types; it accepts exactly the tuples and the lists all of
whose elements are tuples, so only non-tuple non-list values and lists
containing a non-tuple element are rejected — the "must be a pair" part of
the claimed constraint is not enforced. -/
theorem kernel_check_arityBlind :
    (∀ l, checkKernelSizeConsistency (PyVal.tuple l) = Except.ok ()) ∧
    (∀ k, checkKernelSizeConsistency k = Except.ok () ↔
      (∃ l, k = PyVal.tuple l) ∨
        (∃ l, k = PyVal.list l ∧ ∀ e ∈ l, ∃ es, e = PyVal.tuple es)) :=
  ⟨fun _ => rfl, check_ok_accepted⟩
